import Mathlib

/-
Shallow embedding of Poedit's editing-area panel (src/src/editing_area.cpp):
the plural-form describer and the push/pull translation synchronizer.

Strings are modelled as `List Char` (wxString's `Last()` becomes `getLast?`,
`RemoveLast()` becomes `dropLast`, `append(1, c)` becomes `++ [c]`).
Text controls carry their current text together with the wx event-handler
enabled flag that `EventHandlerDisabler` toggles; a programmatic write
records whether the bound `wxEVT_TEXT` handler (which calls
`UpdateFromTextCtrl`) would have fired.
-/

set_option autoImplicit false

namespace EditingAreaModel

/-- A `TranslationTextCtrl`: its plain text, whether its wx event handler is
currently enabled (`SetEvtHandlerEnabled`), and whether the last programmatic
write went through the undoable `SetPlainTextUserWritten` path. -/
structure TextCtrl where
  text : List Char
  evtHandlerEnabled : Bool
  lastWriteUserWritten : Bool
  deriving DecidableEq, Repr

/-- Result of one programmatic write to a text control: the control afterwards,
and whether the write fired the bound text-changed handler (i.e. whether
`UpdateFromTextCtrl` would have been re-entered by this write). -/
structure WriteTrace where
  ctrl : TextCtrl
  pullTriggered : Bool
  deriving DecidableEq, Repr

/-- `TranslationTextCtrl::SetPlainText`: sets the text; wx generates a
`wxEVT_TEXT` event which reaches the bound handler iff the event handler is
enabled at the time of the write. -/
def setPlainText (c : TextCtrl) (value : List Char) : WriteTrace :=
  { ctrl := { c with text := value, lastWriteUserWritten := false },
    pullTriggered := c.evtHandlerEnabled }

/-- `TranslationTextCtrl::SetPlainTextUserWritten`: like `setPlainText` but
the write is recorded on the undo stack as if user-written. -/
def setPlainTextUserWritten (c : TextCtrl) (value : List Char) : WriteTrace :=
  { ctrl := { c with text := value, lastWriteUserWritten := true },
    pullTriggered := c.evtHandlerEnabled }

/-- `SetTranslationValue` (editing_area.cpp lines 62-73): constructs an
`EventHandlerDisabler` (sets the handler-enabled flag to `false`), performs the
write through one of the two paths depending on the `UndoableEdit` flag, and on
scope exit the disabler's destructor unconditionally sets the flag back to
`true`. -/
def SetTranslationValue (txt : TextCtrl) (value : List Char) (undoableEdit : Bool) :
    WriteTrace :=
  let disabled : TextCtrl := { txt with evtHandlerEnabled := false }
  let w := if undoableEdit then setPlainTextUserWritten disabled value
           else setPlainText disabled value
  { ctrl := { w.ctrl with evtHandlerEnabled := true }, pullTriggered := w.pullTriggered }

/-- A catalog entry as the editing area sees it.  `source` is `GetString()`,
`sourcePlural` is `GetPluralString()`, `hasPlural` is `HasPlural()` (derived
from the presence of a plural source), `translations` is `GetTranslations()`.
Modelled from the spec (section 3): the `CatalogItem` class itself is not under
src/, only its use in editing_area.cpp is. -/
structure CatalogItem where
  source : List Char
  sourcePlural : List Char
  hasPlural : Bool
  translations : List (List Char)
  isFuzzy : Bool
  isTranslated : Bool
  isModified : Bool
  isPreTranslated : Bool
  deriving DecidableEq, Repr

/-- Modelled from the spec: `CatalogItem::GetTranslation()` reads the first
stored translation (a singular item stores exactly one translation, section 3
invariant). -/
def CatalogItem.getTranslation (item : CatalogItem) : List Char :=
  item.translations.headD []

/-- Modelled from the spec: `CatalogItem::SetTranslation(t)` overwrites the
first stored translation. -/
def CatalogItem.setTranslation (item : CatalogItem) (t : List Char) : CatalogItem :=
  { item with translations := item.translations.set 0 t }

/-- `CatalogItem::GetNumberOfTranslations()`. -/
def CatalogItem.getNumberOfTranslations (item : CatalogItem) : Nat :=
  item.translations.length

/-- The editing area's state relevant to synchronization: the singular
translation control `m_textTrans`, the plural controls `m_textTransPlural`,
and `m_dontAutoclearFuzzyStatus`. -/
structure EditingArea where
  textTrans : TextCtrl
  textTransPlural : List TextCtrl
  dontAutoclearFuzzyStatus : Bool
  deriving DecidableEq, Repr

/-- `PreprocessEnteredTextForItem` (editing_area.cpp lines 92-105): if both the
entered text and the item's source are non-empty, mirror the source's trailing
newline onto the entered text (append one `\n`, or remove exactly one). -/
def PreprocessEnteredTextForItem (orig : List Char) (t : List Char) : List Char :=
  if t ≠ [] ∧ orig ≠ [] then
    if orig.getLast? = some '\n' ∧ t.getLast? ≠ some '\n' then
      t ++ ['\n']
    else if orig.getLast? ≠ some '\n' ∧ t.getLast? = some '\n' then
      t.dropLast
    else
      t
  else
    t

/-- The second loop of the plural branch of `UpdateToTextCtrl` (lines 613-617):
write `translations[i]` into slot `i` for `i < min(slotCount, #translations)`;
slots beyond the stored translations are not written again (they keep the text
the clearing loop left in them). -/
def writeForms (undoableEdit : Bool) : List TextCtrl → List (List Char) → List WriteTrace
  | [], _ => []
  | c :: cs, [] => { ctrl := c, pullTriggered := false } :: writeForms undoableEdit cs []
  | c :: cs, t :: ts => SetTranslationValue c t undoableEdit :: writeForms undoableEdit cs ts

/-- `EditingArea::UpdateToTextCtrl` (lines 590-656), restricted to the
translation slots and the fuzzy-suppression flag (syntax highlighting, source
controls, tags, error bar and layout are external UI collaborators).  Returns
the new state together with whether any of the programmatic slot writes fired
the pull handler.  For a plural item all plural slots are first cleared, then
the stored translations are written into the first `min(slotCount,
#translations)` slots; for a singular item the single control gets
`GetTranslation()`.  Finally `m_dontAutoclearFuzzyStatus` is reset. -/
def UpdateToTextCtrl (area : EditingArea) (item : CatalogItem) (undoableEdit : Bool) :
    EditingArea × Bool :=
  if item.hasPlural then
    let cleared := area.textTransPlural.map fun c => SetTranslationValue c [] undoableEdit
    let written := writeForms undoableEdit (cleared.map WriteTrace.ctrl) item.translations
    ({ area with
        textTransPlural := written.map WriteTrace.ctrl,
        dontAutoclearFuzzyStatus := false },
     (cleared ++ written).any WriteTrace.pullTriggered)
  else
    let w := SetTranslationValue area.textTrans item.getTranslation undoableEdit
    ({ area with textTrans := w.ctrl, dontAutoclearFuzzyStatus := false },
     w.pullTriggered)

/-- Result of one `UpdateFromTextCtrl` call: the catalog item afterwards, the
fuzzy-toolbar state afterwards, whether the tail of the function ran (row
refresh + `OnUpdatedFromTextCtrl` event), and the `statisticsChanged` value
passed to that event. -/
structure PullResult where
  item : CatalogItem
  toolbarFuzzy : Bool
  notified : Bool
  statisticsChanged : Bool
  deriving DecidableEq, Repr

/-- First half of `UpdateFromTextCtrl` (lines 668-701): normalize every slot
text, compute `allTranslated`, and if the normalized sequence differs from the
stored translations write it into the item.  Returns
`(item after the write, allTranslated, anyTransChanged)`. -/
def pullPhase1 (area : EditingArea) (item : CatalogItem) :
    CatalogItem × Bool × Bool :=
  if item.hasPlural then
    let str := area.textTransPlural.map fun c =>
      PreprocessEnteredTextForItem item.source c.text
    let allTranslated := str.all fun v => !v.isEmpty
    if str = item.translations then
      (item, allTranslated, false)
    else
      ({ item with translations := str }, allTranslated, true)
  else
    let newval := PreprocessEnteredTextForItem item.source area.textTrans.text
    let allTranslated := !newval.isEmpty
    if newval = item.getTranslation then
      (item, allTranslated, false)
    else
      (item.setTranslation newval, allTranslated, true)

/-- Lines 716-732 of `UpdateFromTextCtrl`: apply the (already adjusted) fuzzy
value and the translated flag to the item, mark it modified, and notify. -/
def pullApply (oldIsTranslated : Bool) (item : CatalogItem)
    (allTranslated newfuzzy : Bool) : PullResult :=
  let statisticsChanged := (item.isFuzzy != newfuzzy) || (oldIsTranslated != allTranslated)
  let item2 := if item.isFuzzy != newfuzzy then { item with isFuzzy := newfuzzy } else item
  let item3 := if oldIsTranslated != allTranslated then
    { item2 with isTranslated := allTranslated } else item2
  { item := { item3 with isModified := true, isPreTranslated := false },
    toolbarFuzzy := newfuzzy, notified := true, statisticsChanged := statisticsChanged }

/-- Second half of `UpdateFromTextCtrl` (lines 703-732): the no-op early return
when neither the fuzzy status nor any translation changed, otherwise the
fuzzy auto-clear adjustment followed by the mutation/notification tail. -/
def pullPhase2 (area : EditingArea) (oldIsTranslated : Bool) (item : CatalogItem)
    (allTranslated anyTransChanged newfuzzy : Bool) : PullResult :=
  if item.isFuzzy = newfuzzy ∧ anyTransChanged = false then
    { item := item, toolbarFuzzy := newfuzzy, notified := false, statisticsChanged := false }
  else
    pullApply oldIsTranslated item allTranslated
      (if newfuzzy = item.isFuzzy ∧ area.dontAutoclearFuzzyStatus = false then false
       else newfuzzy)

/-- `EditingArea::UpdateFromTextCtrl` (lines 659-733) for a bound item:
`toolbarFuzzy` is `m_associatedToolbar->IsFuzzy()`. -/
def UpdateFromTextCtrl (area : EditingArea) (item : CatalogItem) (toolbarFuzzy : Bool) :
    PullResult :=
  let oldIsTranslated := item.isTranslated
  let r := pullPhase1 area item
  pullPhase2 area oldIsTranslated r.1 r.2.1 r.2.2 toolbarFuzzy

/-- The aggregate of step 2 of the pull (spec section 4.2): every normalized
slot text is non-empty (plural: every form; singular: the one field). -/
def allTranslatedOf (area : EditingArea) (item : CatalogItem) : Bool :=
  if item.hasPlural then
    (area.textTransPlural.map fun c =>
      PreprocessEnteredTextForItem item.source c.text).all fun v => !v.isEmpty
  else
    !(PreprocessEnteredTextForItem item.source area.textTrans.text).isEmpty

/-- The normalized slot texts agree with the item's stored translations
(the condition under which the pull's step 3 finds nothing changed). -/
def slotsMatchItem (area : EditingArea) (item : CatalogItem) : Bool :=
  if item.hasPlural then
    decide ((area.textTransPlural.map fun c =>
      PreprocessEnteredTextForItem item.source c.text) = item.translations)
  else
    decide (PreprocessEnteredTextForItem item.source area.textTrans.text
      = item.getTranslation)

/-- `maxExamplesCnt` (line 430). -/
def maxExamplesCnt : Nat := 5

/-- State of the example-scanning loop of `RecreatePluralTextCtrls` (lines
429-454): how many examples matched so far, the first matching example
(`int firstExample = -1` in the source), the sample numbers appended to the
`examples` string, and whether the ellipsis was appended (5th match). -/
structure ExampleScan where
  examplesCnt : Nat
  firstExample : Int
  examples : List Nat
  truncated : Bool
  deriving DecidableEq, Repr

/-- The initial scan state. -/
def initScan : ExampleScan :=
  { examplesCnt := 0, firstExample := -1, examples := [], truncated := false }

/-- The `for (int example = 0; example < 1000; example++)` loop body (lines
437-453), driven by the remaining fuel (`1000 - example`).  On the 5th match
the ellipsis is recorded and the loop breaks without appending the number. -/
def scanLoop (evalFn : Nat → Nat) (form : Nat) : Nat → Nat → ExampleScan → ExampleScan
  | 0, _, s => s
  | fuel + 1, sample, s =>
    if evalFn sample = form then
      let cnt := s.examplesCnt + 1
      let first := if cnt = 1 then (sample : Int) else s.firstExample
      if cnt = maxExamplesCnt then
        { examplesCnt := cnt, firstExample := first, examples := s.examples,
          truncated := true }
      else
        scanLoop evalFn form fuel (sample + 1)
          { examplesCnt := cnt, firstExample := first,
            examples := s.examples ++ [sample], truncated := s.truncated }
    else
      scanLoop evalFn form fuel (sample + 1) s

/-- Scan sample cardinals `0..999` for examples of plural form `form`. -/
def scanExamples (evalFn : Nat → Nat) (form : Nat) : ExampleScan :=
  scanLoop evalFn form 1000 0 initScan

/-- The label a notebook page gets in `RecreatePluralTextCtrls`.  The source
builds translated display strings; the constructors stand for the distinct
format strings used there (`_("Everything")`, `_("Form %i")`, `_("Singular")`,
`_("Zero")`, `_("One")`, `_("Two")`, `"n = %s"`, `_("Plural")`, `_("Other")`,
`"n → %s"`). -/
inductive FormLabel where
  | Everything
  | FormN (form : Nat)
  | Singular
  | Zero
  | One
  | Two
  | NEquals (examples : List Nat) (truncated : Bool)
  | Plural
  | Other
  | NArrow (examples : List Nat) (truncated : Bool)
  deriving DecidableEq, Repr

/-- The label-classification chain of `RecreatePluralTextCtrls` (lines
435-491) for one form: the scan runs only when an evaluator was produced and
`formsCount > 1`; the `examples == "0, 1"` string comparison of line 479 holds
exactly when the appended numbers are `[0, 1]`. -/
def formDescription (evalFn : Option (Nat → Nat)) (formsCount : Nat) (form : Nat) :
    FormLabel :=
  let scan := match evalFn with
    | some c => if formsCount > 1 then scanExamples c form else initScan
    | none => initScan
  if formsCount = 1 then
    FormLabel.Everything
  else if scan.examplesCnt = 0 then
    FormLabel.FormN form
  else if scan.examplesCnt = 1 then
    if formsCount = 2 ∧ scan.firstExample = 1 then
      FormLabel.Singular
    else if scan.firstExample = 0 then
      FormLabel.Zero
    else if scan.firstExample = 1 then
      FormLabel.One
    else if scan.firstExample = 2 then
      FormLabel.Two
    else
      FormLabel.NEquals scan.examples scan.truncated
  else if formsCount = 2 ∧ scan.examplesCnt = 2 ∧ scan.firstExample = 0 ∧
      scan.examples = [0, 1] then
    FormLabel.Singular
  else if formsCount = 2 ∧ scan.firstExample ≠ 1 ∧ scan.examplesCnt = maxExamplesCnt then
    if scan.firstExample = 0 ∨ scan.firstExample = 2 then FormLabel.Plural
    else FormLabel.Other
  else
    FormLabel.NArrow scan.examples scan.truncated

/-- `RecreatePluralTextCtrls` (lines 415-511) restricted to the per-form label
computation: the loop over `form < formsCount` produces one labelled notebook
page per form. -/
def RecreatePluralTextCtrls (evalFn : Option (Nat → Nat)) (formsCount : Nat) :
    List FormLabel :=
  (List.range formsCount).map (formDescription evalFn formsCount)

/-- The English-like two-form evaluator of the claim: `n == 1 ? 0 : 1`. -/
def englishEval (n : Nat) : Nat :=
  if n = 1 then 0 else 1

/-! ### Helper lemmas about the write path -/

theorem setTranslationValue_text (c : TextCtrl) (v : List Char) (b : Bool) :
    (SetTranslationValue c v b).ctrl.text = v := by
  cases b <;> rfl

theorem setTranslationValue_not_triggered (c : TextCtrl) (v : List Char) (b : Bool) :
    (SetTranslationValue c v b).pullTriggered = false := by
  cases b <;> rfl

theorem setTranslationValue_enabled (c : TextCtrl) (v : List Char) (b : Bool) :
    (SetTranslationValue c v b).ctrl.evtHandlerEnabled = true := by
  cases b <;> rfl

theorem writeForms_any_triggered (b : Bool) :
    ∀ (cs : List TextCtrl) (ts : List (List Char)),
      (writeForms b cs ts).any WriteTrace.pullTriggered = false := by
  intro cs
  induction cs with
  | nil => intro ts; rfl
  | cons c cs ih =>
    intro ts
    cases ts with
    | nil => simp [writeForms, ih]
    | cons t ts => simp [writeForms, ih, setTranslationValue_not_triggered]

theorem cleared_any_triggered (b : Bool) (v : List Char) :
    ∀ l : List TextCtrl,
      ((l.map fun c => SetTranslationValue c v b).any WriteTrace.pullTriggered) = false := by
  intro l
  induction l with
  | nil => rfl
  | cons c cs ih => simp [ih, setTranslationValue_not_triggered]

theorem cleared_map_text (b : Bool) (v : List Char) :
    ∀ l : List TextCtrl,
      (((l.map fun c => SetTranslationValue c v b).map WriteTrace.ctrl).map TextCtrl.text)
        = List.replicate l.length v := by
  intro l
  induction l with
  | nil => rfl
  | cons c cs ih =>
    simp only [List.map_cons, List.length_cons, List.replicate_succ,
      setTranslationValue_text, List.cons.injEq, true_and]
    exact ih

theorem writeForms_texts (b : Bool) :
    ∀ (cs : List TextCtrl) (ts : List (List Char)),
      (((writeForms b cs ts).map WriteTrace.ctrl).map TextCtrl.text)
        = ts.take cs.length ++ (cs.map TextCtrl.text).drop ts.length := by
  intro cs
  induction cs with
  | nil => intro ts; simp [writeForms]
  | cons c cs ih =>
    intro ts
    cases ts with
    | nil => simp [writeForms, ih]
    | cons t ts => simp [writeForms, ih, setTranslationValue_text]

theorem drop_replicate_list (v : List Char) :
    ∀ (k n : Nat), (List.replicate n v).drop k = List.replicate (n - k) v := by
  intro k
  induction k with
  | zero => intro n; rfl
  | succ k ih =>
    intro n
    cases n with
    | zero => simp
    | succ n =>
      simp only [List.replicate_succ, List.drop_succ_cons, Nat.succ_sub_succ]
      exact ih n

/-! ### Helper lemmas about the normalization -/

theorem preprocess_empty_entered (orig : List Char) :
    PreprocessEnteredTextForItem orig [] = [] := by
  simp [PreprocessEnteredTextForItem]

theorem map_fixpoints {α : Type} {f : α → α} :
    ∀ l : List α, (∀ t ∈ l, f t = t) → l.map f = l := by
  intro l
  induction l with
  | nil => intro _; rfl
  | cons x xs ih =>
    intro h
    simp only [List.map_cons, h x (List.mem_cons_self x xs), List.cons.injEq, true_and]
    exact ih fun t ht => h t (List.mem_cons_of_mem x ht)

theorem headD_set_zero {α : Type} (l : List α) (v d : α) (h : l ≠ []) :
    (l.set 0 v).headD d = v := by
  cases l with
  | nil => exact absurd rfl h
  | cons x xs => rfl

/-! ### The push characterized on slot texts -/

theorem updateToTextCtrl_plural_texts (area : EditingArea) (item : CatalogItem)
    (b : Bool) (hp : item.hasPlural = true) :
    ((UpdateToTextCtrl area item b).1.textTransPlural.map TextCtrl.text)
      = item.translations.take area.textTransPlural.length
        ++ List.replicate (area.textTransPlural.length - item.translations.length) [] := by
  simp only [UpdateToTextCtrl, hp, if_true]
  rw [writeForms_texts]
  rw [cleared_map_text]
  rw [drop_replicate_list]
  have hlen : ((area.textTransPlural.map fun c => SetTranslationValue c [] b).map
      WriteTrace.ctrl).length = area.textTransPlural.length := by simp
  rw [hlen]

theorem updateToTextCtrl_singular_text (area : EditingArea) (item : CatalogItem)
    (b : Bool) (hp : item.hasPlural = false) :
    (UpdateToTextCtrl area item b).1.textTrans.text = item.getTranslation := by
  simp only [UpdateToTextCtrl, hp, Bool.false_eq_true, if_false]
  exact setTranslationValue_text ..

theorem updateToTextCtrl_no_trigger (area : EditingArea) (item : CatalogItem) (b : Bool) :
    (UpdateToTextCtrl area item b).2 = false := by
  cases hp : item.hasPlural with
  | true =>
    simp only [UpdateToTextCtrl, hp, if_true, List.any_append]
    rw [cleared_any_triggered, writeForms_any_triggered]
    rfl
  | false =>
    simp only [UpdateToTextCtrl, hp, Bool.false_eq_true, if_false]
    exact setTranslationValue_not_triggered ..

/-! ### The pull characterized phase by phase -/

theorem updateFromTextCtrl_def (area : EditingArea) (item : CatalogItem) (tb : Bool) :
    UpdateFromTextCtrl area item tb
      = pullPhase2 area item.isTranslated (pullPhase1 area item).1
          (pullPhase1 area item).2.1 (pullPhase1 area item).2.2 tb := rfl

theorem pullApply_spec (old : Bool) (item : CatalogItem) (allT nf : Bool) :
    pullApply old item allT nf
      = { item := { item with
            isFuzzy := nf,
            isTranslated := if old != allT then allT else item.isTranslated,
            isModified := true,
            isPreTranslated := false },
          toolbarFuzzy := nf, notified := true,
          statisticsChanged := (item.isFuzzy != nf) || (old != allT) } := by
  rcases item with ⟨src, sp, hp, tr, f, t, m, p⟩
  cases f <;> cases nf <;> cases old <;> cases allT <;> rfl

theorem pullPhase1_isFuzzy (area : EditingArea) (item : CatalogItem) :
    (pullPhase1 area item).1.isFuzzy = item.isFuzzy := by
  simp only [pullPhase1, CatalogItem.setTranslation]
  split <;> split <;> rfl

theorem pullPhase1_isTranslated (area : EditingArea) (item : CatalogItem) :
    (pullPhase1 area item).1.isTranslated = item.isTranslated := by
  simp only [pullPhase1, CatalogItem.setTranslation]
  split <;> split <;> rfl

theorem pullPhase1_source (area : EditingArea) (item : CatalogItem) :
    (pullPhase1 area item).1.source = item.source := by
  simp only [pullPhase1, CatalogItem.setTranslation]
  split <;> split <;> rfl

theorem pullPhase1_hasPlural (area : EditingArea) (item : CatalogItem) :
    (pullPhase1 area item).1.hasPlural = item.hasPlural := by
  simp only [pullPhase1, CatalogItem.setTranslation]
  split <;> split <;> rfl

theorem pullPhase1_allTranslated (area : EditingArea) (item : CatalogItem) :
    (pullPhase1 area item).2.1 = allTranslatedOf area item := by
  simp only [pullPhase1, allTranslatedOf]
  split <;> split <;> rfl

theorem pullPhase1_of_match (area : EditingArea) (item : CatalogItem)
    (hm : slotsMatchItem area item = true) :
    pullPhase1 area item = (item, allTranslatedOf area item, false) := by
  cases hp : item.hasPlural with
  | true =>
    simp only [slotsMatchItem, hp, if_true, decide_eq_true_eq] at hm
    simp only [pullPhase1, allTranslatedOf, hp, if_true, hm]
  | false =>
    simp only [slotsMatchItem, hp, Bool.false_eq_true, if_false, decide_eq_true_eq] at hm
    simp only [pullPhase1, allTranslatedOf, hp, Bool.false_eq_true, if_false, hm]
    simp

theorem pullPhase2_noop (area : EditingArea) (old : Bool) (item : CatalogItem)
    (allT : Bool) (tb : Bool) (h : item.isFuzzy = tb) :
    pullPhase2 area old item allT false tb
      = { item := item, toolbarFuzzy := tb, notified := false,
          statisticsChanged := false } := by
  simp only [pullPhase2, h, and_self, if_true]

theorem pullPhase2_preserves (area : EditingArea) (old : Bool) (item : CatalogItem)
    (allT ch tb : Bool) :
    (pullPhase2 area old item allT ch tb).item.hasPlural = item.hasPlural
    ∧ (pullPhase2 area old item allT ch tb).item.source = item.source
    ∧ (pullPhase2 area old item allT ch tb).item.translations = item.translations := by
  unfold pullPhase2
  split
  · exact ⟨rfl, rfl, rfl⟩
  · rw [pullApply_spec]
    exact ⟨rfl, rfl, rfl⟩

theorem pullPhase2_toolbar (area : EditingArea) (old : Bool) (item : CatalogItem)
    (allT ch tb : Bool) :
    (pullPhase2 area old item allT ch tb).toolbarFuzzy
      = (pullPhase2 area old item allT ch tb).item.isFuzzy := by
  unfold pullPhase2
  split
  · next h => exact h.1.symm
  · rw [pullApply_spec]

theorem slotsMatchItem_congr (area : EditingArea) (i j : CatalogItem)
    (h1 : i.hasPlural = j.hasPlural) (h2 : i.source = j.source)
    (h3 : i.translations = j.translations) :
    slotsMatchItem area i = slotsMatchItem area j := by
  unfold slotsMatchItem CatalogItem.getTranslation
  rw [h1, h2, h3]

theorem pullPhase1_match_after (area : EditingArea) (item : CatalogItem)
    (hinv : item.hasPlural = false → item.translations ≠ []) :
    slotsMatchItem area (pullPhase1 area item).1 = true := by
  cases hp : item.hasPlural with
  | true =>
    simp only [pullPhase1, hp, if_true]
    split
    · next h =>
      simp only [slotsMatchItem, hp, if_true, decide_eq_true_eq]
      exact h
    · simp only [slotsMatchItem, hp, if_true, decide_eq_true_eq]
  | false =>
    simp only [pullPhase1, hp, Bool.false_eq_true, if_false]
    split
    · next h =>
      simp only [slotsMatchItem, hp, Bool.false_eq_true, if_false, decide_eq_true_eq]
      exact h
    · simp only [slotsMatchItem, CatalogItem.setTranslation, hp, Bool.false_eq_true,
        if_false, decide_eq_true_eq]
      exact (headD_set_zero item.translations _ [] (hinv hp)).symm

theorem pull_noop_aux (area : EditingArea) (item : CatalogItem) (tb : Bool)
    (htb : tb = item.isFuzzy) (hm : slotsMatchItem area item = true) :
    UpdateFromTextCtrl area item tb
      = { item := item, toolbarFuzzy := tb, notified := false,
          statisticsChanged := false } := by
  rw [updateFromTextCtrl_def, pullPhase1_of_match area item hm]
  exact pullPhase2_noop area item.isTranslated item (allTranslatedOf area item) tb htb.symm

theorem pull_match_after (area : EditingArea) (item : CatalogItem) (tb : Bool)
    (hinv : item.hasPlural = false → item.translations ≠ []) :
    slotsMatchItem area (UpdateFromTextCtrl area item tb).item = true := by
  rw [updateFromTextCtrl_def]
  obtain ⟨h1, h2, h3⟩ := pullPhase2_preserves area item.isTranslated
    (pullPhase1 area item).1 (pullPhase1 area item).2.1 (pullPhase1 area item).2.2 tb
  rw [slotsMatchItem_congr area _ (pullPhase1 area item).1 h1 h2 h3]
  exact pullPhase1_match_after area item hinv

theorem pull_toolbar_after (area : EditingArea) (item : CatalogItem) (tb : Bool) :
    (UpdateFromTextCtrl area item tb).toolbarFuzzy
      = (UpdateFromTextCtrl area item tb).item.isFuzzy := by
  rw [updateFromTextCtrl_def]
  exact pullPhase2_toolbar ..

/-! ### Concrete states used by witnesses and counterexamples -/

/-- A text control with the given text, events enabled. -/
def mkCtrl (t : List Char) : TextCtrl :=
  { text := t, evtHandlerEnabled := true, lastWriteUserWritten := false }

/-- Singular item whose stored translation matches its slot (for the no-op pull). -/
def noopItem : CatalogItem :=
  { source := ['a'], sourcePlural := [], hasPlural := false,
    translations := [['x']], isFuzzy := true, isTranslated := true,
    isModified := false, isPreTranslated := false }

/-- Editing area whose singular slot holds exactly `noopItem`'s translation. -/
def noopArea : EditingArea :=
  { textTrans := mkCtrl ['x'], textTransPlural := [],
    dontAutoclearFuzzyStatus := false }

/-- Fuzzy singular item whose slot text was edited (for the auto-clear law). -/
def editedItem : CatalogItem :=
  { source := ['a'], sourcePlural := [], hasPlural := false,
    translations := [['x']], isFuzzy := true, isTranslated := true,
    isModified := false, isPreTranslated := false }

/-- Editing area whose singular slot diverged from `editedItem`'s translation. -/
def editedArea : EditingArea :=
  { textTrans := mkCtrl ['y'], textTransPlural := [],
    dontAutoclearFuzzyStatus := false }

/-- Three-form plural item for the translated-flag law. -/
def threeFormItem : CatalogItem :=
  { source := ['s'], sourcePlural := ['p'], hasPlural := true,
    translations := [['a'], ['a'], ['c']], isFuzzy := false, isTranslated := true,
    isModified := false, isPreTranslated := false }

/-- Editing area with the three plural slots `"a"`, `""`, `"c"`. -/
def threeFormArea : EditingArea :=
  { textTrans := mkCtrl [],
    textTransPlural := [mkCtrl ['a'], mkCtrl [], mkCtrl ['c']],
    dontAutoclearFuzzyStatus := false }

/-- Fuzzy singular item whose stored translation lacks the source's trailing
newline, so the push/pull round trip is not a no-op. -/
def cexItem : CatalogItem :=
  { source := ['a', '\n'], sourcePlural := [], hasPlural := false,
    translations := [['x']], isFuzzy := true, isTranslated := true,
    isModified := false, isPreTranslated := false }

/-- Editing area for the round-trip counterexample. -/
def cexArea : EditingArea :=
  { textTrans := mkCtrl [], textTransPlural := [],
    dontAutoclearFuzzyStatus := false }

/-- Unfuzzy singular item whose stored translation is normalization-stable. -/
def rtItem : CatalogItem :=
  { source := ['a'], sourcePlural := [], hasPlural := false,
    translations := [['x']], isFuzzy := false, isTranslated := true,
    isModified := false, isPreTranslated := false }

/-- Editing area for the round-trip witness. -/
def rtArea : EditingArea :=
  { textTrans := mkCtrl ['z'], textTransPlural := [],
    dontAutoclearFuzzyStatus := false }

/-- Plural item with two stored translations for the three-slot push witness. -/
def pushItem : CatalogItem :=
  { source := ['s'], sourcePlural := ['p'], hasPlural := true,
    translations := [['u'], ['v']], isFuzzy := false, isTranslated := false,
    isModified := false, isPreTranslated := false }

/-- Editing area with three plural slots holding stale text. -/
def pushArea : EditingArea :=
  { textTrans := mkCtrl [],
    textTransPlural := [mkCtrl ['j'], mkCtrl ['k'], mkCtrl ['l']],
    dontAutoclearFuzzyStatus := true }

/-! ### The claims -/

/-- Claim C1: every programmatic translation write (`SetTranslationValue`)
runs with the slot's change notification disabled and re-enables it
unconditionally on scope exit, so no write mode fires the pull handler; and a
whole push (`UpdateToTextCtrl`) never triggers the pull path for any item. -/
theorem push_suppresses_pull :
    (∀ (txt : TextCtrl) (value : List Char) (undoableEdit : Bool),
        (SetTranslationValue txt value undoableEdit).pullTriggered = false
        ∧ (SetTranslationValue txt value undoableEdit).ctrl.evtHandlerEnabled = true)
    ∧ (∀ (area : EditingArea) (item : CatalogItem) (undoableEdit : Bool),
        (UpdateToTextCtrl area item undoableEdit).2 = false) :=
  ⟨fun txt v b =>
      ⟨setTranslationValue_not_triggered txt v b, setTranslationValue_enabled txt v b⟩,
   fun area item b => updateToTextCtrl_no_trigger area item b⟩

/-- Claim C2: when the fuzzy checkbox equals the item's fuzzy flag and the
normalized slot texts equal the stored translations, `UpdateFromTextCtrl` is a
no-op (item unchanged, no notification); consequently pulling twice in a row
with no intervening edit mutates nothing on the second call (stated for items
respecting the invariant that a singular item stores one translation). -/
theorem pull_noop_and_idempotent (area : EditingArea) (item : CatalogItem) (tb : Bool) :
    (tb = item.isFuzzy → slotsMatchItem area item = true →
        (UpdateFromTextCtrl area item tb).item = item
        ∧ (UpdateFromTextCtrl area item tb).notified = false)
    ∧ ((item.hasPlural = false → item.translations ≠ []) →
        (UpdateFromTextCtrl area (UpdateFromTextCtrl area item tb).item
            (UpdateFromTextCtrl area item tb).toolbarFuzzy).item
          = (UpdateFromTextCtrl area item tb).item
        ∧ (UpdateFromTextCtrl area (UpdateFromTextCtrl area item tb).item
            (UpdateFromTextCtrl area item tb).toolbarFuzzy).notified = false) := by
  constructor
  · intro htb hm
    rw [pull_noop_aux area item tb htb hm]
    exact ⟨rfl, rfl⟩
  · intro hinv
    rw [pull_noop_aux area (UpdateFromTextCtrl area item tb).item
        (UpdateFromTextCtrl area item tb).toolbarFuzzy
        (pull_toolbar_after area item tb) (pull_match_after area item tb hinv)]
    exact ⟨rfl, rfl⟩

/-- Witness for claim C2 at a concrete matching state. -/
theorem pull_noop_and_idempotent_witness :
    ((UpdateFromTextCtrl noopArea noopItem true).item = noopItem
      ∧ (UpdateFromTextCtrl noopArea noopItem true).notified = false)
    ∧ ((UpdateFromTextCtrl noopArea (UpdateFromTextCtrl noopArea noopItem true).item
          (UpdateFromTextCtrl noopArea noopItem true).toolbarFuzzy).item
        = (UpdateFromTextCtrl noopArea noopItem true).item
      ∧ (UpdateFromTextCtrl noopArea (UpdateFromTextCtrl noopArea noopItem true).item
          (UpdateFromTextCtrl noopArea noopItem true).toolbarFuzzy).notified = false) :=
  ⟨(pull_noop_and_idempotent noopArea noopItem true).1 (by decide) (by decide),
   (pull_noop_and_idempotent noopArea noopItem true).2 (by decide)⟩

/-- Claim C3: for a fuzzy item, a pull triggered by a translation edit while
the checkbox still shows the item's fuzzy state clears `isFuzzy` unless
`m_dontAutoclearFuzzyStatus` is set, in which case `isFuzzy` stays true. -/
theorem pull_fuzzy_autoclear (area : EditingArea) (item : CatalogItem) (tb : Bool)
    (hf : item.isFuzzy = true) (htb : tb = true)
    (hch : (pullPhase1 area item).2.2 = true) :
    (area.dontAutoclearFuzzyStatus = false →
        (UpdateFromTextCtrl area item tb).item.isFuzzy = false)
    ∧ (area.dontAutoclearFuzzyStatus = true →
        (UpdateFromTextCtrl area item tb).item.isFuzzy = true) := by
  rw [updateFromTextCtrl_def]
  unfold pullPhase2
  rw [if_neg (by simp [hch])]
  rw [pullApply_spec]
  constructor <;> intro hd <;> simp [pullPhase1_isFuzzy, hf, htb, hd]

/-- Witness for claim C3: the edited fuzzy item loses its fuzzy flag. -/
theorem pull_fuzzy_autoclear_witness :
    (UpdateFromTextCtrl editedArea editedItem true).item.isFuzzy = false :=
  (pull_fuzzy_autoclear editedArea editedItem true (by decide) rfl (by decide)).1 rfl

/-- Claim C4: after an accepted pull (one that passes the no-op check),
`isTranslated` equals the conjunction over all slots of "normalized slot text
non-empty". -/
theorem pull_translated_law (area : EditingArea) (item : CatalogItem) (tb : Bool)
    (hacc : ¬(item.isFuzzy = tb ∧ (pullPhase1 area item).2.2 = false)) :
    (UpdateFromTextCtrl area item tb).item.isTranslated = allTranslatedOf area item := by
  rw [updateFromTextCtrl_def]
  unfold pullPhase2
  rw [if_neg (by rw [pullPhase1_isFuzzy]; exact hacc)]
  rw [pullApply_spec]
  simp only [pullPhase1_isTranslated, pullPhase1_allTranslated]
  cases ht : item.isTranslated <;> cases ha : allTranslatedOf area item <;> simp [ht, ha]

/-- Witness for claim C4: the 3-form plural item with slots `"a"`, `""`, `"c"`
ends up not translated. -/
theorem pull_translated_law_witness :
    (UpdateFromTextCtrl threeFormArea threeFormItem false).item.isTranslated = false :=
  (pull_translated_law threeFormArea threeFormItem false (by decide)).trans (by decide)

/-- Counterexample to claim C5 as stated: the source ends with a newline and
the empty entered text does not, yet no newline is appended — the
normalization is guarded by non-emptiness of both strings. -/
theorem preprocess_trailing_newline_cex :
    (['H', 'e', 'l', 'l', 'o', '\n'] : List Char).getLast? = some '\n'
    ∧ ¬ (([] : List Char).getLast? = some '\n')
    ∧ PreprocessEnteredTextForItem ['H', 'e', 'l', 'l', 'o', '\n'] []
        ≠ ([] : List Char) ++ ['\n'] := by
  decide

/-- Claim C5, amended: when both the entered text and the source are
non-empty, the normalization appends one newline when the source ends with a
newline and the entered text does not, removes exactly one trailing newline
when the source does not end with a newline and the entered text does, and
returns the entered text unchanged otherwise; when either string is empty the
entered text is returned verbatim. -/
theorem preprocess_trailing_newline (orig t : List Char)
    (ht : t ≠ []) (ho : orig ≠ []) :
    (orig.getLast? = some '\n' → t.getLast? ≠ some '\n' →
        PreprocessEnteredTextForItem orig t = t ++ ['\n'])
    ∧ (orig.getLast? ≠ some '\n' → t.getLast? = some '\n' →
        PreprocessEnteredTextForItem orig t = t.dropLast)
    ∧ ((orig.getLast? = some '\n' ↔ t.getLast? = some '\n') →
        PreprocessEnteredTextForItem orig t = t) := by
  unfold PreprocessEnteredTextForItem
  rw [if_pos ⟨ht, ho⟩]
  refine ⟨fun h1 h2 => ?_, fun h1 h2 => ?_, fun hiff => ?_⟩
  · rw [if_pos ⟨h1, h2⟩]
  · rw [if_neg fun hc => h1 hc.1, if_pos ⟨h1, h2⟩]
  · by_cases ho2 : orig.getLast? = some '\n'
    · rw [if_neg fun hc => hc.2 (hiff.mp ho2), if_neg fun hc => hc.1 ho2]
    · rw [if_neg fun hc => ho2 hc.1, if_neg fun hc => ho2 (hiff.mpr hc.2)]

/-- Witness for claim C5 (amended), at the claim's own examples: source
`"Hello\n"` with entered `"Hi"` gives `"Hi\n"`, and source `"Hello"` with
entered `"Hi\n"` gives `"Hi"`. -/
theorem preprocess_trailing_newline_witness :
    PreprocessEnteredTextForItem ['H', 'e', 'l', 'l', 'o', '\n'] ['H', 'i']
      = ['H', 'i'] ++ ['\n']
    ∧ PreprocessEnteredTextForItem ['H', 'e', 'l', 'l', 'o'] ['H', 'i', '\n']
      = (['H', 'i', '\n'] : List Char).dropLast :=
  ⟨(preprocess_trailing_newline ['H', 'e', 'l', 'l', 'o', '\n'] ['H', 'i']
      (by decide) (by decide)).1 (by decide) (by decide),
   (preprocess_trailing_newline ['H', 'e', 'l', 'l', 'o'] ['H', 'i', '\n']
      (by decide) (by decide)).2.1 (by decide) (by decide)⟩

/-- Counterexample to claim C6 as stated: a fuzzy, unmodified item whose
stored translation lacks the source's trailing newline; the push/pull round
trip with no edits rewrites the translation, clears `isFuzzy` and sets
`isModified`. -/
theorem push_pull_roundtrip_cex :
    cexItem.isFuzzy = true
    ∧ cexItem.isModified = false
    ∧ (UpdateFromTextCtrl (UpdateToTextCtrl cexArea cexItem false).1 cexItem
        cexItem.isFuzzy).item.isFuzzy = false
    ∧ (UpdateFromTextCtrl (UpdateToTextCtrl cexArea cexItem false).1 cexItem
        cexItem.isFuzzy).item.isModified = true := by
  decide

/-- Claim C6, amended: when the toolbar checkbox reflects the item's fuzzy
flag, every stored translation is already normalization-stable and (for a
plural item) the slot count matches the stored translation count, the push
followed immediately by a pull leaves the item completely unchanged (in
particular `translations`, `isFuzzy`, `isTranslated`, `isModified`) and emits
no notification. -/
theorem push_pull_roundtrip (area : EditingArea) (item : CatalogItem) (b tb : Bool)
    (htb : tb = item.isFuzzy)
    (hfix : ∀ t ∈ item.translations,
        PreprocessEnteredTextForItem item.source t = t)
    (hlen : item.hasPlural = true →
        area.textTransPlural.length = item.translations.length) :
    (UpdateFromTextCtrl (UpdateToTextCtrl area item b).1 item tb).item = item
    ∧ (UpdateFromTextCtrl (UpdateToTextCtrl area item b).1 item tb).notified = false := by
  have hm : slotsMatchItem (UpdateToTextCtrl area item b).1 item = true := by
    cases hp : item.hasPlural with
    | true =>
      simp only [slotsMatchItem, hp, if_true, decide_eq_true_eq]
      have htexts := updateToTextCtrl_plural_texts area item b hp
      rw [hlen hp] at htexts
      simp only [List.take_length, Nat.sub_self, List.replicate_zero,
        List.append_nil] at htexts
      rw [show (fun c : TextCtrl => PreprocessEnteredTextForItem item.source c.text)
            = (PreprocessEnteredTextForItem item.source) ∘ TextCtrl.text from rfl,
        ← List.map_map, htexts, map_fixpoints item.translations hfix]
    | false =>
      simp only [slotsMatchItem, hp, Bool.false_eq_true, if_false, decide_eq_true_eq]
      rw [updateToTextCtrl_singular_text area item b hp]
      cases htr : item.translations with
      | nil => simp [CatalogItem.getTranslation, htr, preprocess_empty_entered]
      | cons hd tl =>
        have hget : item.getTranslation = hd := by
          simp [CatalogItem.getTranslation, htr]
        rw [hget]
        exact hfix hd (by rw [htr]; exact List.mem_cons_self hd tl)
  rw [pull_noop_aux (UpdateToTextCtrl area item b).1 item tb htb hm]
  exact ⟨rfl, rfl⟩

/-- Witness for claim C6 (amended) at a concrete normalization-stable item. -/
theorem push_pull_roundtrip_witness :
    (UpdateFromTextCtrl (UpdateToTextCtrl rtArea rtItem false).1 rtItem false).item = rtItem
    ∧ (UpdateFromTextCtrl (UpdateToTextCtrl rtArea rtItem false).1 rtItem
        false).notified = false :=
  push_pull_roundtrip rtArea rtItem false false (by decide) (by decide) (by decide)

/-- Claim C7: pushing a plural item first clears every plural slot, then
writes `translations[i]` into slot `i` for `i < min(slotCount, #translations)`;
slots beyond the stored translations stay empty, extra stored translations are
dropped, and no slot keeps text that is not either empty or one of the item's
translations. -/
theorem push_plural_slots (area : EditingArea) (item : CatalogItem) (b : Bool)
    (hp : item.hasPlural = true) :
    ((UpdateToTextCtrl area item b).1.textTransPlural.map TextCtrl.text)
      = item.translations.take area.textTransPlural.length
        ++ List.replicate (area.textTransPlural.length - item.translations.length) []
    ∧ ∀ s ∈ (UpdateToTextCtrl area item b).1.textTransPlural.map TextCtrl.text,
        s = [] ∨ s ∈ item.translations := by
  have h := updateToTextCtrl_plural_texts area item b hp
  refine ⟨h, fun s hs => ?_⟩
  rw [h] at hs
  rcases List.mem_append.mp hs with h1 | h2
  · exact Or.inr (List.mem_of_mem_take h1)
  · exact Or.inl (List.eq_of_mem_replicate h2)

/-- Witness for claim C7: three stale slots, two stored translations — the
slots end as the two translations followed by one empty slot. -/
theorem push_plural_slots_witness :
    ((UpdateToTextCtrl pushArea pushItem false).1.textTransPlural.map TextCtrl.text)
      = [['u'], ['v'], []] :=
  ((push_plural_slots pushArea pushItem false (by decide)).1).trans (by decide)

set_option maxRecDepth 100000

/-- Claim C8: with the English-like evaluator `n == 1 ? 0 : 1` and two forms,
the describer labels form 0 "Singular" (its single example in 0..999 is 1) and
form 1 "Plural" (first example 0, five examples found, scan truncated). -/
theorem describer_english_two_forms :
    RecreatePluralTextCtrls (some englishEval) 2
      = [FormLabel.Singular, FormLabel.Plural]
    ∧ (scanExamples englishEval 0).examplesCnt = 1
    ∧ (scanExamples englishEval 0).firstExample = 1
    ∧ (scanExamples englishEval 1).firstExample = 0
    ∧ (scanExamples englishEval 1).examplesCnt = maxExamplesCnt
    ∧ (scanExamples englishEval 1).truncated = true := by
  decide

/-- Claim C9: with no evaluator and more than one form every form gets the
fallback label "Form f", the rebuild produces a label for every one of the
`formsCount` forms, and a single-form grammar is labeled "Everything"
regardless of the evaluator. -/
theorem describer_fallback_labels :
    (∀ formsCount form : Nat, 1 < formsCount →
        formDescription none formsCount form = FormLabel.FormN form)
    ∧ (∀ (evalFn : Option (Nat → Nat)) (form : Nat),
        formDescription evalFn 1 form = FormLabel.Everything)
    ∧ (∀ (evalFn : Option (Nat → Nat)) (formsCount : Nat),
        (RecreatePluralTextCtrls evalFn formsCount).length = formsCount)
    ∧ (∀ formsCount : Nat,
        RecreatePluralTextCtrls none formsCount
          = (List.range formsCount).map FormLabel.FormN
        ∨ formsCount = 1) := by
  have h1 : ∀ formsCount form : Nat, 1 < formsCount →
      formDescription none formsCount form = FormLabel.FormN form := by
    intro formsCount form h
    simp [formDescription, initScan, Nat.ne_of_gt h]
  refine ⟨h1, ?_, ?_, ?_⟩
  · intro evalFn form
    cases evalFn <;> simp [formDescription, initScan]
  · intro evalFn formsCount
    simp [RecreatePluralTextCtrls]
  · intro formsCount
    match formsCount with
    | 0 => exact Or.inl rfl
    | 1 => exact Or.inr rfl
    | n + 2 =>
      refine Or.inl ?_
      unfold RecreatePluralTextCtrls
      exact List.map_congr_left fun f _ => h1 (n + 2) f (by omega)

/-- Witness for claim C9 at a concrete three-form grammar without evaluator. -/
theorem describer_fallback_labels_witness :
    formDescription none 3 1 = FormLabel.FormN 1 :=
  describer_fallback_labels.1 3 1 (by decide)

/-- Claim C10: the normalization is applied only when both the entered text
and the source are non-empty — an empty entered text is stored as the empty
string for every source (never as a lone newline), and with an empty source
the entered text is stored verbatim. -/
theorem preprocess_empty_guards :
    (∀ orig : List Char, PreprocessEnteredTextForItem orig [] = [])
    ∧ (∀ t : List Char, PreprocessEnteredTextForItem [] t = t) :=
  ⟨fun orig => preprocess_empty_entered orig,
   fun t => by simp [PreprocessEnteredTextForItem]⟩

end EditingAreaModel
